import Mathlib

/-!
Verification development for the MQTT event-admin remote-provider client
(src/bundles/event_admin/remote_provider/remote_provider_mqtt/src/celix_earpm_client.c).

The embedding models the client state that is guarded by the single mutex
(message pool counters, waiting queue, publishing map, published map,
subscription ledger, connected flag) and the operations on it. The broker
transport (mosquitto) is an external collaborator: its calls are modelled by
a boolean wire result or by fresh message ids passed in by the caller, and
memory-allocation success is assumed on paths where the claims quantify over
successful allocations. Hash maps are modelled as association lists in
insertion order; TAILQ lists as Lean lists with the head first.
-/

namespace Celix.Earpm

/-- Celix status codes used by the client, as an abstract enumeration:
CELIX_SUCCESS, ENOMEM, ENOTCONN, CELIX_ILLEGAL_ARGUMENT,
CELIX_BUNDLE_EXCEPTION, CELIX_ILLEGAL_STATE, and the timeout status that
celixThreadCondition_waitUntil returns at the deadline. -/
inductive Status where
  | success
  | enomem
  | enotconn
  | illegalArgument
  | bundleException
  | illegalState
  | timedOut
deriving Repr, DecidableEq

/-- Modelled from the spec: the message priority classes LOW, MEDIUM, HIGH
(the enum celix_earpmc_message_priority_e is declared in a header that is not
part of src/). The numeric values realize the ordering used by the waiting
queue: LOW = 0 < MIDDLE = 1 < HIGH = 2. -/
inductive MsgPri where
  | low
  | middle
  | high
deriving Repr, DecidableEq

/-- Numeric value of a priority class, for the >= comparison done by
celix_earpmc_enqueueMsgToWaitingQueue. -/
def MsgPri.val : MsgPri → Nat
  | .low => 0
  | .middle => 1
  | .high => 2

/-- Modelled from the spec: QoS numbering (glossary: 0 at most once, 1 at
least once, 2 exactly once) with the distinguished unknown sentinel below all
real values; the enum celix_earpm_qos_e is declared in a header that is not
part of src/. CELIX_EARPM_QOS_UNKNOWN. -/
def QOS_UNKNOWN : Int := -1

/-- CELIX_EARPM_QOS_AT_MOST_ONCE, the QoS 0 value. -/
def QOS_AT_MOST_ONCE : Int := 0

/-- celix_earpmc_msg_t: one publish request. The mqtt properties blob is
elided (no claim involves it); payload none models a NULL payload pointer. -/
structure Msg where
  topic : String
  payload : Option String
  payloadSize : Nat
  qos : Int
  pri : MsgPri
  sync : Bool
  seqNr : Int
  mqttMid : Int
  error : Status
deriving Repr, DecidableEq

/-- celix_long_hash_map_t with message values, as an association list in
insertion order. -/
abbrev LongMap := List (Int × Msg)

/-- celix_longHashMap_hasKey. -/
def mapHasKey (m : LongMap) (k : Int) : Bool :=
  m.any (fun kv => kv.1 = k)

/-- celix_longHashMap_put: replace the value of the entry holding the key (a
hash map holds at most one), otherwise add the entry. -/
def mapPut : LongMap → Int → Msg → LongMap
  | [], k, v => [(k, v)]
  | kv :: rest, k, v =>
    if kv.1 = k then (k, v) :: rest else kv :: mapPut rest k v

/-- celix_longHashMap_remove: returns whether the key was present, and the
map without it. -/
def mapRemove (m : LongMap) (k : Int) : Bool × LongMap :=
  if mapHasKey m k then (true, m.filter (fun kv => kv.1 ≠ k)) else (false, m)

/-- celix_longHashMap_get as an optional lookup. -/
def mapLookup (m : LongMap) (k : Int) : Option Msg :=
  (m.find? (fun kv => kv.1 = k)).map Prod.snd

/-- The subscription ledger celix_string_hash_map_t (topic to qos), as an
association list in insertion order. -/
abbrev SubMap := List (String × Int)

/-- celix_stringHashMap_hasKey. -/
def smapHasKey (m : SubMap) (k : String) : Bool :=
  m.any (fun kv => kv.1 = k)

/-- celix_stringHashMap_putLong: replace the value of the entry holding the
key (a hash map holds at most one), otherwise add the entry. -/
def smapPut : SubMap → String → Int → SubMap
  | [], k, v => [(k, v)]
  | kv :: rest, k, v =>
    if kv.1 = k then (k, v) :: rest else kv :: smapPut rest k v

/-- celix_stringHashMap_remove. -/
def smapRemove (m : SubMap) (k : String) : Bool × SubMap :=
  if smapHasKey m k then (true, m.filter (fun kv => kv.1 ≠ k)) else (false, m)

/-- celix_stringHashMap_getLong with a default. -/
def smapGet (m : SubMap) (k : String) (d : Int) : Int :=
  match m.find? (fun kv => kv.1 = k) with
  | some kv => kv.2
  | none => d

/-- Optional lookup on the ledger. -/
def smapLookup (m : SubMap) (k : String) : Option Int :=
  (m.find? (fun kv => kv.1 = k)).map Prod.snd

/-- The mutex-guarded part of celix_earpm_client_t: the message pool counters
(cap, usedSize of celix_earpmc_msg_pool_t), the parallel publish cap, the
connected flag, the waiting queue, the publishing map (key mqtt mid), the
published map (key seqNr) and the subscription ledger. -/
structure Client where
  cap : Nat
  usedSize : Nat
  parallelMsgCap : Nat
  connected : Bool
  waiting : List Msg
  publishing : LongMap
  published : LongMap
  subscriptions : SubMap
deriving Repr, DecidableEq

/-- celix_earpmc_validateTopic: non-empty, at most 1024 characters, and none
of the wildcard or reserved characters of the mqtt pattern syntax. -/
def validateTopic (topic : String) : Bool :=
  if topic.length = 0 ∨ topic.length > 1024 then false
  else ¬ topic.toList.any (fun ch => ch = '#' ∨ ch = '+' ∨ ch = '$')

/-- The topic translation done at the start of celix_earpmc_subscribe and
celix_earpmc_unsubscribe: when the last character is the single-level
wildcard marker it is replaced by the mqtt multi-level wildcard, and the
translated string is what the rest of the function uses (the local variable
topic is reassigned to mqttTopic). -/
def translateTopic (topic : String) : String :=
  match topic.data.getLast? with
  | some ch => if ch = '*' then ⟨topic.data.dropLast ++ ['#']⟩ else topic
  | none => topic

/-- celix_earpmc_subscribe. wireOk is the result of the external
mosquitto_subscribe_v5 call (only consulted while connected). The ledger put
is modelled on its success path. -/
def subscribe (c : Client) (topic : String) (qos : Int) (wireOk : Bool) :
    Client × Status :=
  if validateTopic topic = false then (c, .illegalArgument)
  else
    let t := translateTopic topic
    let oldQos := smapGet c.subscriptions t QOS_UNKNOWN
    let subs1 := smapPut c.subscriptions t qos
    if c.connected then
      if wireOk then ({ c with subscriptions := subs1 }, .success)
      else
        let subs2 := if oldQos ≠ QOS_UNKNOWN then smapPut subs1 t oldQos
                     else (smapRemove subs1 t).2
        ({ c with subscriptions := subs2 }, .bundleException)
    else ({ c with subscriptions := subs1 }, .success)

/-- celix_earpmc_unsubscribe. While connected the entry is removed first and
then the wire unsubscribe issued (wireOk models its result); while
disconnected the entry is set to the unknown sentinel. -/
def unsubscribe (c : Client) (topic : String) (wireOk : Bool) :
    Client × Status :=
  if validateTopic topic = false then (c, .illegalArgument)
  else
    let t := translateTopic topic
    if c.connected then
      let subs1 := (smapRemove c.subscriptions t).2
      if wireOk then ({ c with subscriptions := subs1 }, .success)
      else ({ c with subscriptions := subs1 }, .bundleException)
    else
      ({ c with subscriptions := smapPut c.subscriptions t QOS_UNKNOWN }, .success)

/-- celix_earpmc_hasFreeMsgFor on the pool counters: the priority-tiered
admission watermarks, with the same integer arithmetic as the source. -/
def hasFreeMsgForPool (cap used : Nat) (pri : MsgPri) : Bool :=
  match pri with
  | .low => used < cap * 70 / 100
  | .middle => used < cap * 85 / 100
  | .high => used < cap

/-- celix_earpmc_hasFreeMsgFor. -/
def hasFreeMsgFor (c : Client) (pri : MsgPri) : Bool :=
  hasFreeMsgForPool c.cap c.usedSize pri

/-- celix_earpmc_isPublishingQueueFull. -/
def isPublishingQueueFull (c : Client) : Bool :=
  c.publishing.length ≥ c.parallelMsgCap

/-- celix_earpmc_messageCreate on the allocation-success path (the pool slot
and the topic strdup succeed); the pool counter update done by
celix_earpmc_msgPoolAlloc is performed by the caller embeddings. seqNr is the
value taken from the global sequence counter. -/
def messageCreate (topic : String) (qos : Int) (pri : MsgPri) (sync : Bool)
    (seqNr : Int) : Msg :=
  { topic := topic, payload := none, payloadSize := 0, qos := qos, pri := pri,
    sync := sync, seqNr := seqNr, mqttMid := -1, error := .success }

/-- celix_earpmc_fillMessagePayload on the allocation-success path. Note that
the source guard reads the payloadSize FIELD of the message (which
messageCreate set to 0), not the payloadSize argument; only when the guard
holds is the payload copied and are both fields updated. -/
def fillMessagePayload (msg : Msg) (payload : Option String)
    (payloadSize : Nat) : Msg :=
  if msg.payloadSize > 0 ∧ payload.isSome then
    { msg with payload := payload, payloadSize := payloadSize }
  else msg

/-- celix_earpmc_publishMessage on the transport-success path: the broker
transport assigns the fresh message id mid, which is recorded in the message,
and the message is put into the publishing map under that id. -/
def publishMessage (c : Client) (msg : Msg) (mid : Int) : Client × Msg :=
  let m := { msg with mqttMid := mid }
  ({ c with publishing := mapPut c.publishing mid m }, m)

/-- celix_earpmc_enqueueMsgToWaitingQueue. The source scans the queue from
the tail (TAILQ_FOREACH_REVERSE) for the first entry whose priority is at
least the priority of the new message and inserts after it, i.e. after the
LAST such entry in head-to-tail order, or at the head when there is none.
The recursion below inserts after the last entry with priority >= m.pri. -/
def enqueueMsgToWaitingQueue (q : List Msg) (m : Msg) : List Msg :=
  match q with
  | [] => [m]
  | x :: xs =>
    if xs.any (fun y => decide (m.pri.val ≤ y.pri.val)) then
      x :: enqueueMsgToWaitingQueue xs m
    else if m.pri.val ≤ x.pri.val then x :: m :: xs
    else m :: x :: xs

/-- celix_earpmc_publishDoNext: when connected and the publishing map is
below the parallel cap, publish directly without filling the payload into the
message; otherwise fill the payload and enqueue to the waiting queue. The
direct wire publish is modelled on its success path with fresh id mid. -/
def publishDoNext (c : Client) (msg : Msg) (payload : Option String)
    (payloadSize : Nat) (mid : Int) : Client × Status :=
  if c.connected = true ∧ isPublishingQueueFull c = false then
    ((publishMessage c msg mid).1, .success)
  else
    let m := fillMessagePayload msg payload payloadSize
    ({ c with waiting := enqueueMsgToWaitingQueue c.waiting m }, .success)

/-- celix_earpmc_publishAsync: connectivity check for QoS 0, admission
control, message creation (pool slot taken), then publishDoNext. seqNr and
mid are the fresh sequence number and transport id. -/
def publishAsync (c : Client) (topic : String) (payload : Option String)
    (payloadSize : Nat) (qos : Int) (pri : MsgPri) (seqNr : Int) (mid : Int) :
    Client × Status :=
  if qos ≤ QOS_AT_MOST_ONCE ∧ c.connected = false then (c, .enotconn)
  else if hasFreeMsgFor c pri = false then (c, .enomem)
  else
    let c1 := { c with usedSize := c.usedSize + 1 }
    let msg := messageCreate topic qos pri false seqNr
    publishDoNext c1 msg payload payloadSize mid

/-- celix_earpmc_deleteMsgFromQueue, the cleanup run when the synchronous
wait fails. The first removal is keyed by msg.mqttMid on the published map,
although that map is keyed by seqNr (the source declares it with the comment
key = seqNr). TAILQ_REMOVE is modelled as removing the message if present;
in C it is undefined behaviour when the message is not in the list. -/
def deleteMsgFromQueue (c : Client) (msg : Msg) : Client :=
  let r1 := mapRemove c.published msg.mqttMid
  if r1.1 then { c with published := r1.2 }
  else
    let r2 := mapRemove c.publishing msg.mqttMid
    if r2.1 then { c with publishing := r2.2 }
    else { c with waiting := c.waiting.filter (fun m => decide (m ≠ msg)) }

/-- celix_earpmc_enqueueMsgToPublishedQueue on the map-put success path:
asynchronous messages are not recorded; a synchronous message is recorded in
the published map under its sequence number with the outcome err. -/
def enqueueMsgToPublishedQueue (published : LongMap) (msg : Msg)
    (err : Status) : LongMap :=
  if msg.sync = false then published
  else mapPut published msg.seqNr { msg with error := err }

/-- The loop of celix_earpmc_releaseWaitingMsgToPublishing on the
transport-success path: while the publishing map is below parCap and the
waiting queue is non-empty, send the head (fresh ids mid, mid + 1, ...) and
move it into the publishing map. Returns the remaining waiting queue, the new
publishing map, and the messages sent in wire order. -/
def releaseWaitingAux : List Msg → LongMap → Nat → Int →
    List Msg × LongMap × List Msg
  | [], publishing, _, _ => ([], publishing, [])
  | m :: rest, publishing, parCap, mid =>
    if publishing.length ≥ parCap then (m :: rest, publishing, [])
    else
      let m1 := { m with mqttMid := mid }
      let r := releaseWaitingAux rest (mapPut publishing mid m1) parCap (mid + 1)
      (r.1, r.2.1, m1 :: r.2.2)

/-- celix_earpmc_releaseWaitingMsgToPublishing on the transport-success path,
returning the updated client and the messages sent in wire order. -/
def releaseWaitingMsgToPublishing (c : Client) (mid : Int) :
    Client × List Msg :=
  let r := releaseWaitingAux c.waiting c.publishing c.parallelMsgCap mid
  ({ c with waiting := r.1, publishing := r.2.1 }, r.2.2)

/-- A wire operation issued to the broker by the resubscription pass. -/
inductive WireOp where
  | sub (topic : String) (qos : Int)
  | unsub (topic : String)
deriving Repr, DecidableEq

/-- celix_earpmc_refreshSubscriptions: entries with a qos above the unknown
sentinel are (re)subscribed on the wire and kept; sentinel entries get a wire
unsubscribe and are removed from the ledger. Wire failures only affect
logging. Returns the new ledger and the wire operations in ledger order. -/
def refreshSubscriptions : SubMap → SubMap × List WireOp
  | [] => ([], [])
  | (t, q) :: rest =>
    let r := refreshSubscriptions rest
    if q > QOS_UNKNOWN then ((t, q) :: r.1, .sub t q :: r.2)
    else (r.1, .unsub t :: r.2)

/-- The wire call of celix_earpmc_subscribe: when the topic is valid and the
client connected, mosquitto_subscribe_v5 is issued with the local topic
variable, which was reassigned to the translated form before the call; no
wire call is made otherwise. -/
def subscribeWireOp (c : Client) (topic : String) (qos : Int) : Option WireOp :=
  if validateTopic topic = false then none
  else if c.connected then some (WireOp.sub (translateTopic topic) qos)
  else none

/-- The wire call of celix_earpmc_unsubscribe: when the topic is valid and
the client connected, mosquitto_unsubscribe is issued with the local topic
variable, which was reassigned to the translated form before the call; no
wire call is made otherwise. -/
def unsubscribeWireOp (c : Client) (topic : String) : Option WireOp :=
  if validateTopic topic = false then none
  else if c.connected then some (WireOp.unsub (translateTopic topic))
  else none

/-- The first loop of celix_earpmc_dropQos0Messages: walk the publishing map,
record each QoS 0 message in the published map with a failure outcome (sync
ones only, see enqueueMsgToPublishedQueue) and remove it; keep the rest. -/
def dropQos0FromPublishing : LongMap → LongMap → LongMap × LongMap
  | [], published => ([], published)
  | kv :: rest, published =>
    if kv.2.qos ≤ QOS_AT_MOST_ONCE then
      dropQos0FromPublishing rest
        (enqueueMsgToPublishedQueue published kv.2 .illegalState)
    else
      let r := dropQos0FromPublishing rest published
      (kv :: r.1, r.2)

/-- The second loop of celix_earpmc_dropQos0Messages, over the waiting
queue. -/
def dropQos0FromWaiting : List Msg → LongMap → List Msg × LongMap
  | [], published => ([], published)
  | m :: rest, published =>
    if m.qos ≤ QOS_AT_MOST_ONCE then
      dropQos0FromWaiting rest
        (enqueueMsgToPublishedQueue published m .illegalState)
    else
      let r := dropQos0FromWaiting rest published
      (m :: r.1, r.2)

/-- celix_earpmc_dropQos0Messages. -/
def dropQos0Messages (c : Client) : Client :=
  let p := dropQos0FromPublishing c.publishing c.published
  let w := dropQos0FromWaiting c.waiting p.2
  { c with publishing := p.1, waiting := w.1, published := w.2 }

/-- celix_earpmc_disconnectCallback: clear the connected flag and drop the
QoS 0 messages; QoS 1 and 2 messages are left for the session resumption of
the protocol engine. -/
def disconnectCallback (c : Client) : Client :=
  dropQos0Messages { c with connected := false }

/-- Result of the admission loop at the top of celix_earpmc_publishSync. -/
inductive AdmitResult where
  | admitted
  | failed (s : Status)
  | outOfTrace
deriving Repr, DecidableEq

/-- The admission loop of celix_earpmc_publishSync. Each trace element is the
pool usedSize observed at the loop head, paired with the result the condition
wait would return if it is taken (other threads may change usedSize between
waits, hence one observation per iteration). A real execution has a finite
trace whose waits end in a non-success status at the absolute deadline at the
latest; outOfTrace marks a trace too short to decide the loop. -/
def publishSyncAdmit (cap : Nat) (qos : Int) :
    List (Nat × Status) → AdmitResult
  | [] => .outOfTrace
  | (used, w) :: rest =>
    if hasFreeMsgForPool cap used .low then .admitted
    else if qos ≤ QOS_AT_MOST_ONCE then .failed .enomem
    else if w = .success then publishSyncAdmit cap qos rest
    else .failed w

/-- celix_earpmc_publishSync up to the point where the message is created:
the QoS 0 connectivity check followed by the admission loop. -/
def publishSyncPre (connected : Bool) (cap : Nat) (qos : Int)
    (trace : List (Nat × Status)) : AdmitResult :=
  if qos ≤ QOS_AT_MOST_ONCE ∧ connected = false then .failed .enotconn
  else publishSyncAdmit cap qos trace

/-- Statement helper: the key list of a message map. -/
def mapKeys (m : LongMap) : List Int :=
  m.map Prod.fst

/-- Statement helper: the published-map entries that a pass of
celix_earpmc_dropQos0Messages records for a message list, in order: one entry
per synchronous QoS 0 message, keyed by its sequence number, carrying the
failure outcome. -/
def qos0SyncRecord (msgs : List Msg) : LongMap :=
  msgs.filterMap (fun m =>
    if m.qos ≤ QOS_AT_MOST_ONCE ∧ m.sync = true then
      some (m.seqNr, { m with error := Status.illegalState })
    else none)

/-- Statement helper: the waiting queue ordered by priority class, head
first - every later message has a priority no higher than every earlier
one. -/
def WaitingSorted (q : List Msg) : Prop :=
  List.Pairwise (fun a b => b.pri.val ≤ a.pri.val) q

/-! ### Lemmas about the hash-map models -/

theorem smapPut_put (m : SubMap) (k : String) (v w : Int) :
    smapPut (smapPut m k v) k w = smapPut m k w := by
  induction m with
  | nil => simp [smapPut]
  | cons a rest ih =>
    by_cases h : a.1 = k
    · simp [smapPut, h]
    · simp [smapPut, h, ih]

theorem smapLookup_put_self (m : SubMap) (k : String) (v : Int) :
    smapLookup (smapPut m k v) k = some v := by
  induction m with
  | nil => simp [smapPut, smapLookup]
  | cons a rest ih =>
    by_cases h : a.1 = k
    · simp [smapPut, smapLookup, h]
    · simpa [smapPut, smapLookup, h] using ih

theorem smapPut_lookup_eq (m : SubMap) (k : String) (v : Int)
    (h : smapLookup m k = some v) : smapPut m k v = m := by
  induction m with
  | nil => simp [smapLookup] at h
  | cons a rest ih =>
    obtain ⟨a1, a2⟩ := a
    by_cases hk : a1 = k
    · have hv : a2 = v := by simp [smapLookup, List.find?, hk] at h; exact h
      simp [smapPut, hk, hv]
    · have h2 : smapLookup rest k = some v := by
        simpa [smapLookup, List.find?, hk] using h
      simp [smapPut, hk, ih h2]

theorem smapHasKey_false_forall (m : SubMap) (k : String)
    (h : smapHasKey m k = false) : ∀ kv ∈ m, kv.1 ≠ k := by
  intro kv hkv
  have := List.any_eq_false.mp h kv hkv
  simpa using this

theorem smapPut_fresh (m : SubMap) (k : String) (v : Int)
    (h : smapHasKey m k = false) : smapPut m k v = m ++ [(k, v)] := by
  induction m with
  | nil => simp [smapPut]
  | cons a rest ih =>
    have hk : a.1 ≠ k := smapHasKey_false_forall _ _ h a (List.mem_cons_self a rest)
    have hrest : smapHasKey rest k = false := by
      rcases List.any_eq_false.mp h with _
      apply List.any_eq_false.mpr
      intro kv hkv
      simpa using smapHasKey_false_forall _ _ h kv (List.mem_cons_of_mem a hkv)
    simp [smapPut, hk, ih hrest]

theorem smapRemove_put_fresh (m : SubMap) (k : String) (v : Int)
    (h : smapHasKey m k = false) : (smapRemove (smapPut m k v) k).2 = m := by
  rw [smapPut_fresh m k v h]
  have hkey : smapHasKey (m ++ [(k, v)]) k = true := by
    simp [smapHasKey]
  rw [smapRemove, hkey]
  simp only [if_true]
  rw [List.filter_append]
  have h1 : m.filter (fun kv => decide (kv.1 ≠ k)) = m := by
    apply List.filter_eq_self.mpr
    intro kv hkv
    simpa using smapHasKey_false_forall _ _ h kv hkv
  have h2 : List.filter (fun kv => decide (kv.1 ≠ k)) [(k, v)] = [] := by
    simp
  rw [h1, h2, List.append_nil]

theorem smapHasKey_false_lookup (m : SubMap) (k : String)
    (h : smapHasKey m k = false) : smapLookup m k = none := by
  induction m with
  | nil => simp [smapLookup]
  | cons a rest ih =>
    have hk : a.1 ≠ k := smapHasKey_false_forall _ _ h a (List.mem_cons_self a rest)
    have hrest : smapHasKey rest k = false := by
      apply List.any_eq_false.mpr
      intro kv hkv
      simpa using smapHasKey_false_forall _ _ h kv (List.mem_cons_of_mem a hkv)
    simpa [smapLookup, List.find?, hk] using ih hrest

theorem mem_smapPut_self (m : SubMap) (k : String) (v : Int) :
    (k, v) ∈ smapPut m k v := by
  induction m with
  | nil => simp [smapPut]
  | cons a rest ih =>
    by_cases h : a.1 = k
    · simp [smapPut, h]
    · simp [smapPut, h]
      right
      exact ih

theorem smapPut_any_key (m : SubMap) (k : String) (v : Int) (p : Int → Bool)
    (hnd : (m.map Prod.fst).Nodup) :
    ((smapPut m k v).any (fun kv => kv.1 = k && p kv.2)) = p v := by
  induction m with
  | nil => simp [smapPut]
  | cons a rest ih =>
    rw [List.map_cons, List.nodup_cons] at hnd
    obtain ⟨ha, hrest⟩ := hnd
    by_cases h : a.1 = k
    · have hnone : rest.any (fun kv => kv.1 = k && p kv.2) = false := by
        apply List.any_eq_false.mpr
        intro kv hkv
        have : kv.1 ≠ k := by
          intro hc
          apply ha
          have hm : kv.1 ∈ List.map Prod.fst rest := List.mem_map_of_mem Prod.fst hkv
          rw [h, ← hc]
          exact hm
        simp [this]
      simp [smapPut, h, List.any_cons, hnone]
    · simp [smapPut, h, List.any_cons, ih hrest]

theorem mapHasKey_false_forall (m : LongMap) (k : Int)
    (h : mapHasKey m k = false) : ∀ kv ∈ m, kv.1 ≠ k := by
  intro kv hkv
  have := List.any_eq_false.mp h kv hkv
  simpa using this

theorem mapPut_fresh (m : LongMap) (k : Int) (v : Msg)
    (h : mapHasKey m k = false) : mapPut m k v = m ++ [(k, v)] := by
  induction m with
  | nil => simp [mapPut]
  | cons a rest ih =>
    have hk : a.1 ≠ k := mapHasKey_false_forall _ _ h a (List.mem_cons_self a rest)
    have hrest : mapHasKey rest k = false := by
      apply List.any_eq_false.mpr
      intro kv hkv
      simpa using mapHasKey_false_forall _ _ h kv (List.mem_cons_of_mem a hkv)
    simp [mapPut, hk, ih hrest]

theorem smapHasKey_put_ne (m : SubMap) (k k' : String) (v : Int) (h : k' ≠ k) :
    smapHasKey (smapPut m k v) k' = smapHasKey m k' := by
  induction m with
  | nil => simp [smapPut, smapHasKey, Ne.symm h]
  | cons a rest ih =>
    by_cases hk : a.1 = k
    · have h2 : k ≠ k' := Ne.symm h
      have h3 : a.1 ≠ k' := by
        rw [hk]
        exact h2
      simp [smapPut, hk, smapHasKey, List.any_cons, h2, h3]
    · have hstep : smapPut (a :: rest) k v = a :: smapPut rest k v := by
        simp [smapPut, hk]
      rw [hstep]
      simp only [smapHasKey, List.any_cons] at ih ⊢
      rw [ih]

theorem smapHasKey_filter_ne (m : SubMap) (k k' : String) (h : k' ≠ k) :
    smapHasKey (m.filter (fun kv => decide (kv.1 ≠ k))) k' = smapHasKey m k' := by
  induction m with
  | nil => rfl
  | cons a rest ih =>
    by_cases hk : a.1 = k
    · have h2 : a.1 ≠ k' := by
        rw [hk]
        exact Ne.symm h
      have hstep : List.filter (fun kv => decide (kv.1 ≠ k)) (a :: rest) =
          List.filter (fun kv => decide (kv.1 ≠ k)) rest := by
        rw [List.filter_cons]
        simp [hk]
      rw [hstep, ih]
      simp [smapHasKey, List.any_cons, h2]
    · have hstep : List.filter (fun kv => decide (kv.1 ≠ k)) (a :: rest) =
          a :: List.filter (fun kv => decide (kv.1 ≠ k)) rest := by
        rw [List.filter_cons]
        simp [hk]
      rw [hstep]
      simp only [smapHasKey, List.any_cons] at ih ⊢
      rw [ih]

theorem smapHasKey_remove_ne (m : SubMap) (k k' : String) (h : k' ≠ k) :
    smapHasKey (smapRemove m k).2 k' = smapHasKey m k' := by
  rw [smapRemove]
  by_cases hk : smapHasKey m k = true
  · rw [if_pos hk]
    exact smapHasKey_filter_ne m k k' h
  · rw [if_neg hk]

theorem translateTopic_ne_of_star (topic : String)
    (h : topic.data.getLast? = some '*') : translateTopic topic ≠ topic := by
  have ht : translateTopic topic = ⟨topic.data.dropLast ++ ['#']⟩ := by
    unfold translateTopic
    rw [h]
    simp
  intro he
  have hdata : topic.data.dropLast ++ ['#'] = topic.data :=
    congrArg String.data (ht ▸ he)
  have h1 : (topic.data.dropLast ++ ['#']).getLast? = some '#' := by
    simp
  rw [hdata, h] at h1
  simp at h1

theorem mapHasKey_eq_mem_keys (m : LongMap) (k : Int) :
    mapHasKey m k = true ↔ k ∈ mapKeys m := by
  constructor
  · intro h
    obtain ⟨kv, hkv, he⟩ := List.any_eq_true.mp h
    have : kv.1 = k := by simpa using he
    exact this ▸ List.mem_map_of_mem Prod.fst hkv
  · intro h
    obtain ⟨kv, hkv, he⟩ := List.mem_map.mp h
    exact List.any_eq_true.mpr ⟨kv, hkv, by simp [he]⟩

/-! ### Lemmas about the resubscription pass -/

theorem refresh_hasKey (subs : SubMap) (k : String) :
    smapHasKey (refreshSubscriptions subs).1 k =
      subs.any (fun kv => kv.1 = k && decide (QOS_UNKNOWN < kv.2)) := by
  induction subs with
  | nil => simp [refreshSubscriptions, smapHasKey]
  | cons a rest ih =>
    obtain ⟨t, q⟩ := a
    by_cases hq : q > QOS_UNKNOWN
    · simp [refreshSubscriptions, hq, smapHasKey, List.any_cons] at ih ⊢
      rw [ih]
    · simp [refreshSubscriptions, hq, smapHasKey, List.any_cons] at ih ⊢
      exact ih

theorem refresh_unsub_mem (subs : SubMap) (k : String) (q : Int)
    (hmem : (k, q) ∈ subs) (hq : q ≤ QOS_UNKNOWN) :
    WireOp.unsub k ∈ (refreshSubscriptions subs).2 := by
  induction subs with
  | nil => simp at hmem
  | cons a rest ih =>
    obtain ⟨t, q'⟩ := a
    rcases List.mem_cons.mp hmem with he | hr
    · simp only [Prod.mk.injEq] at he
      obtain ⟨h1, h2⟩ := he
      subst h1; subst h2
      have : ¬ q > QOS_UNKNOWN := by omega
      simp [refreshSubscriptions, this]
    · by_cases hq' : q' > QOS_UNKNOWN
      · have hstep : (refreshSubscriptions ((t, q') :: rest)).2 =
            WireOp.sub t q' :: (refreshSubscriptions rest).2 := by
          simp [refreshSubscriptions, hq']
        rw [hstep]
        exact List.mem_cons_of_mem _ (ih hr)
      · have hstep : (refreshSubscriptions ((t, q') :: rest)).2 =
            WireOp.unsub t :: (refreshSubscriptions rest).2 := by
          simp [refreshSubscriptions, hq']
        rw [hstep]
        exact List.mem_cons_of_mem _ (ih hr)

/-! ### Lemmas about the QoS 0 purge -/

theorem dropQos0FromPublishing_fst (l : LongMap) (pub : LongMap) :
    (dropQos0FromPublishing l pub).1 =
      l.filter (fun kv => decide (QOS_AT_MOST_ONCE < kv.2.qos)) := by
  induction l generalizing pub with
  | nil => simp [dropQos0FromPublishing]
  | cons kv rest ih =>
    by_cases h : kv.2.qos ≤ QOS_AT_MOST_ONCE
    · have : ¬ QOS_AT_MOST_ONCE < kv.2.qos := by omega
      simp [dropQos0FromPublishing, h, this, ih]
    · have : QOS_AT_MOST_ONCE < kv.2.qos := by omega
      simp [dropQos0FromPublishing, h, this, ih]

theorem dropQos0FromWaiting_fst (l : List Msg) (pub : LongMap) :
    (dropQos0FromWaiting l pub).1 =
      l.filter (fun m => decide (QOS_AT_MOST_ONCE < m.qos)) := by
  induction l generalizing pub with
  | nil => simp [dropQos0FromWaiting]
  | cons m rest ih =>
    by_cases h : m.qos ≤ QOS_AT_MOST_ONCE
    · have : ¬ QOS_AT_MOST_ONCE < m.qos := by omega
      simp [dropQos0FromWaiting, h, this, ih]
    · have : QOS_AT_MOST_ONCE < m.qos := by omega
      simp [dropQos0FromWaiting, h, this, ih]

theorem dropQos0FromWaiting_snd (l : List Msg) (pub : LongMap)
    (h : (mapKeys pub ++ mapKeys (qos0SyncRecord l)).Nodup) :
    (dropQos0FromWaiting l pub).2 = pub ++ qos0SyncRecord l := by
  induction l generalizing pub with
  | nil => simp [dropQos0FromWaiting, qos0SyncRecord]
  | cons m rest ih =>
    by_cases hq : m.qos ≤ QOS_AT_MOST_ONCE
    · by_cases hs : m.sync = true
      · have hrec : qos0SyncRecord (m :: rest) =
            (m.seqNr, { m with error := Status.illegalState }) :: qos0SyncRecord rest := by
          simp [qos0SyncRecord, hq, hs]
        have hfresh : mapHasKey pub m.seqNr = false := by
          rw [← Bool.not_eq_true]
          intro hk
          have hk2 : m.seqNr ∈ mapKeys pub := (mapHasKey_eq_mem_keys pub m.seqNr).mp hk
          rw [hrec] at h
          have hd := (List.nodup_append.mp h).2.2
          exact hd hk2 (by simp [mapKeys])
        have hput : enqueueMsgToPublishedQueue pub m Status.illegalState =
            pub ++ [(m.seqNr, { m with error := Status.illegalState })] := by
          rw [enqueueMsgToPublishedQueue, if_neg (by simp [hs])]
          exact mapPut_fresh pub m.seqNr _ hfresh
        have hnd2 : (mapKeys (pub ++ [(m.seqNr, { m with error := Status.illegalState })]) ++
            mapKeys (qos0SyncRecord rest)).Nodup := by
          rw [hrec] at h
          have : mapKeys pub ++ mapKeys ((m.seqNr, { m with error := Status.illegalState }) ::
              qos0SyncRecord rest) = mapKeys pub ++ [(m.seqNr :  Int)] ++
              mapKeys (qos0SyncRecord rest) := by
            simp [mapKeys]
          rw [this] at h
          simpa [mapKeys] using h
        rw [dropQos0FromWaiting, if_pos hq, hput, ih _ hnd2, hrec]
        simp
      · have hs2 : m.sync = false := by
          cases hb : m.sync
          · rfl
          · exact absurd hb hs
        have hrec : qos0SyncRecord (m :: rest) = qos0SyncRecord rest := by
          simp [qos0SyncRecord, hq, hs2]
        have hput : enqueueMsgToPublishedQueue pub m Status.illegalState = pub := by
          rw [enqueueMsgToPublishedQueue, if_pos hs2]
        rw [dropQos0FromWaiting, if_pos hq, hput, ih _ (hrec ▸ h), hrec]
    · have hrec : qos0SyncRecord (m :: rest) = qos0SyncRecord rest := by
        simp [qos0SyncRecord, hq]
      have hstep : (dropQos0FromWaiting (m :: rest) pub).2 =
          (dropQos0FromWaiting rest pub).2 := by
        simp [dropQos0FromWaiting, hq]
      rw [hstep, ih _ (hrec ▸ h), hrec]

theorem dropQos0FromPublishing_snd (l : LongMap) (pub : LongMap)
    (h : (mapKeys pub ++ mapKeys (qos0SyncRecord (l.map Prod.snd))).Nodup) :
    (dropQos0FromPublishing l pub).2 = pub ++ qos0SyncRecord (l.map Prod.snd) := by
  induction l generalizing pub with
  | nil => simp [dropQos0FromPublishing, qos0SyncRecord]
  | cons kv rest ih =>
    have hmap : (kv :: rest).map Prod.snd = kv.2 :: rest.map Prod.snd := by simp
    by_cases hq : kv.2.qos ≤ QOS_AT_MOST_ONCE
    · by_cases hs : kv.2.sync = true
      · have hrec : qos0SyncRecord ((kv :: rest).map Prod.snd) =
            (kv.2.seqNr, { kv.2 with error := Status.illegalState }) ::
              qos0SyncRecord (rest.map Prod.snd) := by
          rw [hmap]
          simp [qos0SyncRecord, hq, hs]
        have hfresh : mapHasKey pub kv.2.seqNr = false := by
          rw [← Bool.not_eq_true]
          intro hk
          have hk2 : kv.2.seqNr ∈ mapKeys pub := (mapHasKey_eq_mem_keys pub kv.2.seqNr).mp hk
          rw [hrec] at h
          have hd := (List.nodup_append.mp h).2.2
          exact hd hk2 (by simp [mapKeys])
        have hput : enqueueMsgToPublishedQueue pub kv.2 Status.illegalState =
            pub ++ [(kv.2.seqNr, { kv.2 with error := Status.illegalState })] := by
          rw [enqueueMsgToPublishedQueue, if_neg (by simp [hs])]
          exact mapPut_fresh pub kv.2.seqNr _ hfresh
        have hnd2 : (mapKeys (pub ++ [(kv.2.seqNr, { kv.2 with error := Status.illegalState })]) ++
            mapKeys (qos0SyncRecord (rest.map Prod.snd))).Nodup := by
          rw [hrec] at h
          have heq : mapKeys pub ++ mapKeys ((kv.2.seqNr, { kv.2 with error := Status.illegalState }) ::
              qos0SyncRecord (rest.map Prod.snd)) = mapKeys pub ++ [(kv.2.seqNr : Int)] ++
              mapKeys (qos0SyncRecord (rest.map Prod.snd)) := by
            simp [mapKeys]
          rw [heq] at h
          simpa [mapKeys] using h
        rw [dropQos0FromPublishing, if_pos hq, hput, ih _ hnd2, hrec]
        simp
      · have hs2 : kv.2.sync = false := by
          cases hb : kv.2.sync
          · rfl
          · exact absurd hb hs
        have hrec : qos0SyncRecord ((kv :: rest).map Prod.snd) =
            qos0SyncRecord (rest.map Prod.snd) := by
          rw [hmap]
          simp [qos0SyncRecord, hq, hs2]
        have hput : enqueueMsgToPublishedQueue pub kv.2 Status.illegalState = pub := by
          rw [enqueueMsgToPublishedQueue, if_pos hs2]
        rw [dropQos0FromPublishing, if_pos hq, hput, ih _ (hrec ▸ h), hrec]
    · have hrec : qos0SyncRecord ((kv :: rest).map Prod.snd) =
          qos0SyncRecord (rest.map Prod.snd) := by
        rw [hmap]
        simp [qos0SyncRecord, hq]
      have hstep : (dropQos0FromPublishing (kv :: rest) pub).2 =
          (dropQos0FromPublishing rest pub).2 := by
        simp [dropQos0FromPublishing, hq]
      rw [hstep, ih _ (hrec ▸ h), hrec]

/-! ### Lemmas about the waiting-queue insertion -/

theorem mem_enqueue (q : List Msg) (m b : Msg) :
    b ∈ enqueueMsgToWaitingQueue q m ↔ b = m ∨ b ∈ q := by
  induction q with
  | nil => simp [enqueueMsgToWaitingQueue]
  | cons x xs ih =>
    by_cases h1 : xs.any (fun y => decide (m.pri.val ≤ y.pri.val)) = true
    · simp [enqueueMsgToWaitingQueue, h1, ih]
      tauto
    · by_cases h2 : m.pri.val ≤ x.pri.val
      · simp [enqueueMsgToWaitingQueue, h1, h2]
        tauto
      · simp [enqueueMsgToWaitingQueue, h1, h2]

theorem enqueue_eq_takeWhile (q : List Msg) (m : Msg) (h : WaitingSorted q) :
    enqueueMsgToWaitingQueue q m =
      q.takeWhile (fun y => decide (m.pri.val ≤ y.pri.val)) ++
        m :: q.dropWhile (fun y => decide (m.pri.val ≤ y.pri.val)) := by
  induction q with
  | nil => simp [enqueueMsgToWaitingQueue]
  | cons x xs ih =>
    rw [WaitingSorted, List.pairwise_cons] at h
    obtain ⟨hx, hxs⟩ := h
    by_cases h1 : xs.any (fun y => decide (m.pri.val ≤ y.pri.val)) = true
    · obtain ⟨y, hy, hmy⟩ := List.any_eq_true.mp h1
      have hmy2 : m.pri.val ≤ y.pri.val := of_decide_eq_true hmy
      have hPx : m.pri.val ≤ x.pri.val := le_trans hmy2 (hx y hy)
      simp [enqueueMsgToWaitingQueue, h1, List.takeWhile_cons, List.dropWhile_cons,
        hPx, ih hxs]
    · have hall : ∀ y ∈ xs, ¬ (m.pri.val ≤ y.pri.val) := by
        intro y hy
        have := List.any_eq_false.mp (Bool.not_eq_true _ ▸ h1 : _) y hy
        simpa using this
      have htw : xs.takeWhile (fun y => decide (m.pri.val ≤ y.pri.val)) = [] := by
        cases xs with
        | nil => rfl
        | cons z zs =>
          have := hall z (List.mem_cons_self z zs)
          simp [List.takeWhile_cons, this]
      have hdw : xs.dropWhile (fun y => decide (m.pri.val ≤ y.pri.val)) = xs := by
        cases xs with
        | nil => rfl
        | cons z zs =>
          have := hall z (List.mem_cons_self z zs)
          simp [List.dropWhile_cons, this]
      by_cases h2 : m.pri.val ≤ x.pri.val
      · simp [enqueueMsgToWaitingQueue, h1, h2, List.takeWhile_cons, List.dropWhile_cons,
          htw, hdw]
      · simp [enqueueMsgToWaitingQueue, h1, h2, List.takeWhile_cons, List.dropWhile_cons]

theorem enqueue_sorted (q : List Msg) (m : Msg) (h : WaitingSorted q) :
    WaitingSorted (enqueueMsgToWaitingQueue q m) := by
  induction q with
  | nil =>
    simp [enqueueMsgToWaitingQueue, WaitingSorted]
  | cons x xs ih =>
    rw [WaitingSorted, List.pairwise_cons] at h
    obtain ⟨hx, hxs⟩ := h
    by_cases h1 : xs.any (fun y => decide (m.pri.val ≤ y.pri.val)) = true
    · obtain ⟨y, hy, hmy⟩ := List.any_eq_true.mp h1
      have hmy2 : m.pri.val ≤ y.pri.val := of_decide_eq_true hmy
      have hgoal : enqueueMsgToWaitingQueue (x :: xs) m = x :: enqueueMsgToWaitingQueue xs m := by
        simp [enqueueMsgToWaitingQueue, h1]
      rw [hgoal, WaitingSorted, List.pairwise_cons]
      refine ⟨?_, ih hxs⟩
      intro b hb
      rcases (mem_enqueue xs m b).mp hb with hbm | hbx
      · subst hbm
        exact le_trans hmy2 (hx y hy)
      · exact hx b hbx
    · have hall : ∀ y ∈ xs, ¬ (m.pri.val ≤ y.pri.val) := by
        intro y hy
        have := List.any_eq_false.mp (Bool.not_eq_true _ ▸ h1 : _) y hy
        simpa using this
      by_cases h2 : m.pri.val ≤ x.pri.val
      · have hgoal : enqueueMsgToWaitingQueue (x :: xs) m = x :: m :: xs := by
          simp [enqueueMsgToWaitingQueue, h1, h2]
        rw [hgoal, WaitingSorted, List.pairwise_cons]
        constructor
        · intro b hb
          rcases List.mem_cons.mp hb with hbm | hbx
          · subst hbm; exact h2
          · exact hx b hbx
        · rw [List.pairwise_cons]
          refine ⟨?_, hxs⟩
          intro b hb
          exact le_of_lt (Nat.lt_of_not_le (hall b hb))
      · have hgoal : enqueueMsgToWaitingQueue (x :: xs) m = m :: x :: xs := by
          simp [enqueueMsgToWaitingQueue, h1, h2]
        rw [hgoal, WaitingSorted, List.pairwise_cons]
        constructor
        · intro b hb
          rcases List.mem_cons.mp hb with hbm | hbx
          · subst hbm
            exact le_of_lt (Nat.lt_of_not_le h2)
          · exact le_trans (hx b hbx) (le_of_lt (Nat.lt_of_not_le h2))
        · rw [List.pairwise_cons]
          exact ⟨hx, hxs⟩

/-! ### Lemmas about the synchronous admission loop at capacity one -/

theorem hasFree_low_cap_one (u : Nat) : hasFreeMsgForPool 1 u MsgPri.low = false := by
  have h : (1 : Nat) * 70 / 100 = 0 := by norm_num
  simp [hasFreeMsgForPool, h]

theorem publishSyncAdmit_cap_one_ne_admitted (qos : Int) (trace : List (Nat × Status)) :
    publishSyncAdmit 1 qos trace ≠ AdmitResult.admitted := by
  induction trace with
  | nil => simp [publishSyncAdmit]
  | cons p rest ih =>
    obtain ⟨u, w⟩ := p
    by_cases hq : qos ≤ QOS_AT_MOST_ONCE
    · simp [publishSyncAdmit, hasFree_low_cap_one, hq]
    · by_cases hw : w = Status.success
      · simpa [publishSyncAdmit, hasFree_low_cap_one, hq, hw] using ih
      · simp [publishSyncAdmit, hasFree_low_cap_one, hq, hw]

theorem publishSyncAdmit_cap_one_qos0 (qos : Int) (hq : qos ≤ QOS_AT_MOST_ONCE)
    (u : Nat) (w : Status) (rest : List (Nat × Status)) :
    publishSyncAdmit 1 qos ((u, w) :: rest) = AdmitResult.failed Status.enomem := by
  simp [publishSyncAdmit, hasFree_low_cap_one, hq]

theorem publishSyncAdmit_cap_one_firstFail (qos : Int) (hq : ¬ qos ≤ QOS_AT_MOST_ONCE)
    (trace : List (Nat × Status)) (s : Status)
    (hfind : (trace.map Prod.snd).find? (fun w => decide (w ≠ Status.success)) = some s) :
    publishSyncAdmit 1 qos trace = AdmitResult.failed s := by
  induction trace with
  | nil => simp at hfind
  | cons p rest ih =>
    obtain ⟨u, w⟩ := p
    by_cases hw : w = Status.success
    · subst hw
      rw [List.map_cons, List.find?_cons_of_neg _ (by simp)] at hfind
      simpa [publishSyncAdmit, hasFree_low_cap_one, hq] using ih hfind
    · rw [List.map_cons, List.find?_cons_of_pos _ (by simpa using hw)] at hfind
      have hs : w = s := by simpa using hfind
      subst hs
      simp [publishSyncAdmit, hasFree_low_cap_one, hq, hw]

theorem smapGet_eq_lookup (m : SubMap) (k : String) (d : Int) :
    smapGet m k d = (smapLookup m k).getD d := by
  rw [smapGet, smapLookup]
  cases h : m.find? (fun kv => kv.1 = k) with
  | none => simp
  | some kv => simp

theorem smapLookup_none_hasKey (m : SubMap) (k : String)
    (h : smapLookup m k = none) : smapHasKey m k = false := by
  induction m with
  | nil => simp [smapHasKey]
  | cons a rest ih =>
    by_cases hk : a.1 = k
    · simp [smapLookup, List.find?, hk] at h
    · have h2 : smapLookup rest k = none := by
        simpa [smapLookup, List.find?, hk] using h
      have h3 := ih h2
      simp only [smapHasKey, List.any_cons] at h3 ⊢
      rw [h3]
      simp [hk]

/-! ### Claim theorems -/

/-- C1: the spec states that for a publish routed to the waiting queue the
caller payload of positive length is copied into the queued Message and sent
later with the same bytes and length. The code never copies it:
fillMessagePayload guards on the payloadSize field of the freshly created
message (which messageCreate set to 0) instead of the payloadSize argument.
The general part shows the fill is the identity on every freshly created
message for every payload; the concrete part evaluates the code at the
failing input - a disconnected QoS 1 publishAsync with payload "abc" of
length 3 queues a message holding no payload and length 0. -/
theorem c1_fillMessagePayload_never_copies :
    (∀ (topic : String) (qos : Int) (pri : MsgPri) (isSync : Bool) (seqNr : Int)
        (payload : Option String) (payloadSize : Nat),
      fillMessagePayload (messageCreate topic qos pri isSync seqNr) payload payloadSize =
        messageCreate topic qos pri isSync seqNr) ∧
    ((publishAsync ⟨10, 0, 5, false, [], [], [], []⟩ "t" (some "abc") 3 1 MsgPri.low 0 1).2 =
        Status.success ∧
      (publishAsync ⟨10, 0, 5, false, [], [], [], []⟩ "t" (some "abc") 3 1
            MsgPri.low 0 1).1.waiting.map (fun m => (m.payload, m.payloadSize)) =
        [(none, 0)]) := by
  constructor
  · intro topic qos pri isSync seqNr payload payloadSize
    simp [fillMessagePayload, messageCreate]
  · exact ⟨by decide, by decide⟩

/-- C2: the spec states the sync-wait cleanup removes the Message from
whichever of the three structures holds it, the published map being keyed by
sequence number. The code removes from the published map using the transport
message id as the key: for a synchronous message with sequence number 5 and
transport id 3 sitting in the published map, deleteMsgFromQueue leaves the
published map unchanged, so the structure still holds the message
afterwards. -/
theorem c2_deleteMsgFromQueue_wrong_key :
    (deleteMsgFromQueue
        ⟨10, 1, 5, true, [], [],
          [(5, ⟨"t", none, 0, 1, MsgPri.low, true, 5, 3, Status.success⟩)], []⟩
        ⟨"t", none, 0, 1, MsgPri.low, true, 5, 3, Status.success⟩).published =
      [(5, ⟨"t", none, 0, 1, MsgPri.low, true, 5, 3, Status.success⟩)] := by
  decide

/-- C3 counterexample: the claim states the subscription ledger never stores
an entry under the translated form and that the stored key keeps the
caller-facing form ending in the single-level wildcard marker. Subscribing
"a/*" with QoS 1 on a disconnected client with an empty ledger succeeds,
stores the entry under the translated key "a/#", and stores nothing under
"a/*". -/
theorem c3_ledger_stores_translated :
    (subscribe ⟨10, 0, 5, false, [], [], [], []⟩ "a/*" 1 true).2 = Status.success ∧
    (subscribe ⟨10, 0, 5, false, [], [], [], []⟩ "a/*" 1 true).1.subscriptions =
      [("a/#", 1)] ∧
    smapLookup (subscribe ⟨10, 0, 5, false, [], [], [], []⟩ "a/*" 1
        true).1.subscriptions "a/*" = none := by
  refine ⟨by decide, by decide, by decide⟩

/-- C3 amended: a pattern ending in the single-level wildcard marker is
translated to the multi-level wildcard and the translated form is used both
for the wire operation and as the ledger key, in every connectivity state.
First part: the wire subscribe and unsubscribe calls, issued exactly while
connected, carry the translated topic. Second part: every ledger update of
subscribe and unsubscribe - disconnected store, connected store on wire
success, connected rollback on wire failure, connected removal - is keyed by
translateTopic topic. Third part: for a pattern ending in the wildcard
marker, neither subscribe nor unsubscribe ever creates a ledger entry under
the caller-facing form, in any connectivity state and for any wire outcome.
Finally the concrete instances: "a/*" is keyed as "a/#" both disconnected
and connected, never as "a/*". -/
theorem c3_translated_form_is_stored_key :
    (∀ (c : Client) (topic : String) (qos : Int),
      validateTopic topic = true →
      subscribeWireOp c topic qos =
        (if c.connected = true then some (WireOp.sub (translateTopic topic) qos)
         else none) ∧
      unsubscribeWireOp c topic =
        (if c.connected = true then some (WireOp.unsub (translateTopic topic))
         else none)) ∧
    (∀ (c : Client) (topic : String) (qos : Int) (wireOk : Bool),
      validateTopic topic = true →
      (c.connected = false →
        (subscribe c topic qos wireOk).1.subscriptions =
            smapPut c.subscriptions (translateTopic topic) qos ∧
        (unsubscribe c topic wireOk).1.subscriptions =
            smapPut c.subscriptions (translateTopic topic) QOS_UNKNOWN) ∧
      (c.connected = true →
        (subscribe c topic qos true).1.subscriptions =
            smapPut c.subscriptions (translateTopic topic) qos ∧
        (subscribe c topic qos false).1.subscriptions =
            (if smapGet c.subscriptions (translateTopic topic) QOS_UNKNOWN ≠
                QOS_UNKNOWN then
              smapPut (smapPut c.subscriptions (translateTopic topic) qos)
                (translateTopic topic)
                (smapGet c.subscriptions (translateTopic topic) QOS_UNKNOWN)
            else
              (smapRemove (smapPut c.subscriptions (translateTopic topic) qos)
                (translateTopic topic)).2) ∧
        (unsubscribe c topic wireOk).1.subscriptions =
            (smapRemove c.subscriptions (translateTopic topic)).2)) ∧
    (∀ (c : Client) (topic : String) (qos : Int) (wireOk : Bool),
      validateTopic topic = true → topic.data.getLast? = some '*' →
      smapHasKey c.subscriptions topic = false →
      smapHasKey (subscribe c topic qos wireOk).1.subscriptions topic = false ∧
      smapHasKey (unsubscribe c topic wireOk).1.subscriptions topic = false) ∧
    (translateTopic "a/*" = "a/#" ∧
      smapLookup (subscribe ⟨10, 0, 5, false, [], [], [], []⟩ "a/*" 1
          true).1.subscriptions "a/#" = some 1 ∧
      smapLookup (subscribe ⟨10, 0, 5, true, [], [], [], []⟩ "a/*" 1
          true).1.subscriptions "a/#" = some 1 ∧
      smapLookup (subscribe ⟨10, 0, 5, true, [], [], [], []⟩ "a/*" 1
          true).1.subscriptions "a/*" = none ∧
      smapLookup (unsubscribe ⟨10, 0, 5, false, [], [], [], []⟩ "b/*"
          true).1.subscriptions "b/#" = some QOS_UNKNOWN ∧
      smapLookup (unsubscribe ⟨10, 0, 5, false, [], [], [], []⟩ "b/*"
          true).1.subscriptions "b/*" = none) := by
  refine ⟨?_, ?_, ?_, ?_⟩
  · intro c topic qos hv
    constructor
    · simp [subscribeWireOp, hv]
    · simp [unsubscribeWireOp, hv]
  · intro c topic qos wireOk hv
    constructor
    · intro hc
      exact ⟨by simp [subscribe, hv, hc], by simp [unsubscribe, hv, hc]⟩
    · intro hc
      refine ⟨?_, ?_, ?_⟩
      · simp [subscribe, hv, hc]
      · by_cases ho : smapGet c.subscriptions (translateTopic topic) QOS_UNKNOWN ≠
            QOS_UNKNOWN
        · simp [subscribe, hv, hc, ho]
        · simp [subscribe, hv, hc, ho]
      · cases wireOk <;> simp [unsubscribe, hv, hc]
  · intro c topic qos wireOk hv hstar hk0
    have hne : topic ≠ translateTopic topic :=
      fun he => translateTopic_ne_of_star topic hstar he.symm
    constructor
    · cases hc : c.connected
      · have hs : (subscribe c topic qos wireOk).1.subscriptions =
            smapPut c.subscriptions (translateTopic topic) qos := by
          simp [subscribe, hv, hc]
        rw [hs, smapHasKey_put_ne _ _ _ _ hne]
        exact hk0
      · cases hw : wireOk
        · by_cases ho : smapGet c.subscriptions (translateTopic topic) QOS_UNKNOWN ≠
              QOS_UNKNOWN
          · have hs : (subscribe c topic qos false).1.subscriptions =
                smapPut (smapPut c.subscriptions (translateTopic topic) qos)
                  (translateTopic topic)
                  (smapGet c.subscriptions (translateTopic topic) QOS_UNKNOWN) := by
              simp [subscribe, hv, hc, ho]
            rw [hs, smapHasKey_put_ne _ _ _ _ hne, smapHasKey_put_ne _ _ _ _ hne]
            exact hk0
          · have hs : (subscribe c topic qos false).1.subscriptions =
                (smapRemove (smapPut c.subscriptions (translateTopic topic) qos)
                  (translateTopic topic)).2 := by
              simp [subscribe, hv, hc, ho]
            rw [hs, smapHasKey_remove_ne _ _ _ hne, smapHasKey_put_ne _ _ _ _ hne]
            exact hk0
        · have hs : (subscribe c topic qos true).1.subscriptions =
              smapPut c.subscriptions (translateTopic topic) qos := by
            simp [subscribe, hv, hc]
          rw [hs, smapHasKey_put_ne _ _ _ _ hne]
          exact hk0
    · cases hc : c.connected
      · have hs : (unsubscribe c topic wireOk).1.subscriptions =
            smapPut c.subscriptions (translateTopic topic) QOS_UNKNOWN := by
          simp [unsubscribe, hv, hc]
        rw [hs, smapHasKey_put_ne _ _ _ _ hne]
        exact hk0
      · have hs : (unsubscribe c topic wireOk).1.subscriptions =
            (smapRemove c.subscriptions (translateTopic topic)).2 := by
          cases wireOk <;> simp [unsubscribe, hv, hc]
        rw [hs, smapHasKey_remove_ne _ _ _ hne]
        exact hk0
  · refine ⟨by decide, by decide, by decide, by decide, by decide, by decide⟩

/-- C3 amended, witness: the wire-op part at a connected client, the ledger
part at a disconnected client, and the no-wildcard-key part at a connected
client whose wire unsubscribe fails, all on the concrete pattern "a/*". -/
theorem c3_translated_form_is_stored_key_witness :
    (subscribeWireOp ⟨10, 0, 5, true, [], [], [], []⟩ "a/*" 1 =
        (if (⟨10, 0, 5, true, [], [], [], []⟩ : Client).connected = true then
          some (WireOp.sub (translateTopic "a/*") 1)
         else none) ∧
      unsubscribeWireOp ⟨10, 0, 5, true, [], [], [], []⟩ "a/*" =
        (if (⟨10, 0, 5, true, [], [], [], []⟩ : Client).connected = true then
          some (WireOp.unsub (translateTopic "a/*"))
         else none)) ∧
    ((subscribe ⟨10, 0, 5, false, [], [], [], []⟩ "a/*" 1 true).1.subscriptions =
        smapPut ([] : SubMap) (translateTopic "a/*") 1 ∧
      (unsubscribe ⟨10, 0, 5, false, [], [], [], []⟩ "a/*" true).1.subscriptions =
        smapPut ([] : SubMap) (translateTopic "a/*") QOS_UNKNOWN) ∧
    (smapHasKey (subscribe ⟨10, 0, 5, true, [], [], [], [("x", 2)]⟩ "a/*" 1
        false).1.subscriptions "a/*" = false ∧
      smapHasKey (unsubscribe ⟨10, 0, 5, true, [], [], [], [("x", 2)]⟩ "a/*"
        false).1.subscriptions "a/*" = false) :=
  ⟨c3_translated_form_is_stored_key.1 ⟨10, 0, 5, true, [], [], [], []⟩ "a/*" 1
      (by decide),
    (c3_translated_form_is_stored_key.2.1 ⟨10, 0, 5, false, [], [], [], []⟩ "a/*" 1
        true (by decide)).1 rfl,
    c3_translated_form_is_stored_key.2.2.1 ⟨10, 0, 5, true, [], [], [], [("x", 2)]⟩
      "a/*" 1 false (by decide) rfl (by decide)⟩

/-- C4 counterexample: the claim states a failed connected-mode unsubscribe
leaves the ledger unchanged. With the ledger holding topic "a" at QoS 1, a
connected unsubscribe whose wire call fails returns the error but leaves the
ledger empty - the entry is not restored. -/
theorem c4_unsubscribe_not_rolled_back :
    (unsubscribe ⟨10, 0, 5, true, [], [], [], [("a", 1)]⟩ "a" false).2 =
        Status.bundleException ∧
    (unsubscribe ⟨10, 0, 5, true, [], [], [], [("a", 1)]⟩ "a" false).1.subscriptions =
        [] := by
  refine ⟨by decide, by decide⟩

/-- C4 amended: while connected, a failed wire subscribe rolls the ledger
back exactly to its prior value (prior qos restored or the fresh entry
removed; stated under the hash-map key-uniqueness reading and excluding a
prior sentinel entry, which cannot exist while connected), but a failed wire
unsubscribe does NOT restore the ledger: the entry stays removed and the
error is returned. -/
theorem c4_subscribe_rollback_unsubscribe_none :
    (∀ (c : Client) (topic : String) (qos : Int),
      validateTopic topic = true → c.connected = true →
      smapLookup c.subscriptions (translateTopic topic) ≠ some QOS_UNKNOWN →
      (subscribe c topic qos false).1.subscriptions = c.subscriptions ∧
      (subscribe c topic qos false).2 = Status.bundleException) ∧
    (∀ (c : Client) (topic : String),
      validateTopic topic = true → c.connected = true →
      (unsubscribe c topic false).1.subscriptions =
          (smapRemove c.subscriptions (translateTopic topic)).2 ∧
      (unsubscribe c topic false).2 = Status.bundleException) := by
  constructor
  · intro c topic qos hv hc hns
    cases hfind : smapLookup c.subscriptions (translateTopic topic) with
    | some v =>
      have hv2 : v ≠ QOS_UNKNOWN := fun hvv => hns (hvv ▸ hfind)
      have hget : smapGet c.subscriptions (translateTopic topic) QOS_UNKNOWN = v := by
        rw [smapGet_eq_lookup, hfind]
        rfl
      constructor
      · simp [subscribe, hv, hc, hget, hv2, smapPut_put,
          smapPut_lookup_eq _ _ _ hfind]
      · simp [subscribe, hv, hc]
    | none =>
      have hget : smapGet c.subscriptions (translateTopic topic) QOS_UNKNOWN =
          QOS_UNKNOWN := by
        rw [smapGet_eq_lookup, hfind]
        rfl
      have hnk : smapHasKey c.subscriptions (translateTopic topic) = false :=
        smapLookup_none_hasKey _ _ hfind
      constructor
      · simp [subscribe, hv, hc, hget, smapRemove_put_fresh _ _ _ hnk]
      · simp [subscribe, hv, hc]
  · intro c topic hv hc
    constructor
    · simp [unsubscribe, hv, hc]
    · simp [unsubscribe, hv, hc]

/-- C4 amended, witness: the subscribe rollback and the unsubscribe
non-restoration applied to a concrete connected client whose ledger holds
topic "a" at QoS 1. -/
theorem c4_subscribe_rollback_unsubscribe_none_witness :
    ((subscribe ⟨10, 0, 5, true, [], [], [], [("a", 1)]⟩ "a" 2 false).1.subscriptions =
        [("a", 1)] ∧
      (subscribe ⟨10, 0, 5, true, [], [], [], [("a", 1)]⟩ "a" 2 false).2 =
        Status.bundleException) ∧
    ((unsubscribe ⟨10, 0, 5, true, [], [], [], [("a", 1)]⟩ "a" false).1.subscriptions =
        (smapRemove [("a", 1)] (translateTopic "a")).2 ∧
      (unsubscribe ⟨10, 0, 5, true, [], [], [], [("a", 1)]⟩ "a" false).2 =
        Status.bundleException) :=
  ⟨c4_subscribe_rollback_unsubscribe_none.1 ⟨10, 0, 5, true, [], [], [], [("a", 1)]⟩
      "a" 2 (by decide) rfl (by decide),
    c4_subscribe_rollback_unsubscribe_none.2 ⟨10, 0, 5, true, [], [], [], [("a", 1)]⟩
      "a" (by decide) rfl⟩

/-- C5: the admission decision is a pure function of capacity, used count and
priority with the watermarks of the source (integer arithmetic): LOW admitted
iff used < cap * 70 / 100, MEDIUM iff used < cap * 85 / 100, HIGH iff
used < cap; and with capacity 100 and 70 slots used, a LOW publishAsync is
rejected with the resource error while a HIGH publishAsync is admitted and
sent. -/
theorem c5_admission_policy :
    (∀ (cap used : Nat), 0 < cap →
      (hasFreeMsgForPool cap used MsgPri.low = true ↔ used < cap * 70 / 100) ∧
      (hasFreeMsgForPool cap used MsgPri.middle = true ↔ used < cap * 85 / 100) ∧
      (hasFreeMsgForPool cap used MsgPri.high = true ↔ used < cap)) ∧
    ((publishAsync ⟨100, 70, 10, true, [], [], [], []⟩ "t" none 0 1 MsgPri.low 0 1).2 =
        Status.enomem ∧
      (publishAsync ⟨100, 70, 10, true, [], [], [], []⟩ "t" none 0 1 MsgPri.high 0 1).2 =
        Status.success ∧
      mapHasKey (publishAsync ⟨100, 70, 10, true, [], [], [], []⟩ "t" none 0 1
          MsgPri.high 0 1).1.publishing 1 = true) := by
  constructor
  · intro cap used hcap
    refine ⟨?_, ?_, ?_⟩ <;> simp [hasFreeMsgForPool]
  · refine ⟨by decide, by decide, by decide⟩

/-- C5, witness: the three admission equivalences applied at capacity 100
with 70 slots used. -/
theorem c5_admission_policy_witness :
    (hasFreeMsgForPool 100 70 MsgPri.low = true ↔ 70 < 100 * 70 / 100) ∧
    (hasFreeMsgForPool 100 70 MsgPri.middle = true ↔ 70 < 100 * 85 / 100) ∧
    (hasFreeMsgForPool 100 70 MsgPri.high = true ↔ 70 < 100) :=
  c5_admission_policy.1 100 70 (by decide)

/-- C6: waiting-queue insertion places the new message directly after the
prefix of messages whose priority is at least its own (so classes stay in
HIGH, MEDIUM, LOW order with strict FIFO inside a class) and keeps the queue
sorted; and on the concrete run A(LOW), B(HIGH), C(LOW) the queue becomes
[B, A, C] and the drain sends B, A, C in that order on the wire. -/
theorem c6_waiting_queue_order :
    (∀ (q : List Msg) (m : Msg), WaitingSorted q →
      enqueueMsgToWaitingQueue q m =
        q.takeWhile (fun y => decide (m.pri.val ≤ y.pri.val)) ++
          m :: q.dropWhile (fun y => decide (m.pri.val ≤ y.pri.val)) ∧
      WaitingSorted (enqueueMsgToWaitingQueue q m)) ∧
    ((enqueueMsgToWaitingQueue (enqueueMsgToWaitingQueue (enqueueMsgToWaitingQueue []
          (messageCreate "A" 1 MsgPri.low false 0))
          (messageCreate "B" 1 MsgPri.high false 1))
          (messageCreate "C" 1 MsgPri.low false 2)).map Msg.topic = ["B", "A", "C"] ∧
      (releaseWaitingAux [messageCreate "B" 1 MsgPri.high false 1,
          messageCreate "A" 1 MsgPri.low false 0,
          messageCreate "C" 1 MsgPri.low false 2] [] 10 1).2.2.map Msg.topic =
        ["B", "A", "C"]) := by
  constructor
  · intro q m h
    exact ⟨enqueue_eq_takeWhile q m h, enqueue_sorted q m h⟩
  · refine ⟨by decide, by decide⟩

/-- C6, witness: inserting a LOW message into the sorted singleton queue
holding a HIGH message. -/
theorem c6_waiting_queue_order_witness :
    enqueueMsgToWaitingQueue [messageCreate "B" 1 MsgPri.high false 1]
        (messageCreate "A" 1 MsgPri.low false 0) =
      [messageCreate "B" 1 MsgPri.high false 1].takeWhile
          (fun y => decide ((messageCreate "A" 1 MsgPri.low false 0).pri.val ≤ y.pri.val)) ++
        messageCreate "A" 1 MsgPri.low false 0 ::
          [messageCreate "B" 1 MsgPri.high false 1].dropWhile
            (fun y => decide ((messageCreate "A" 1 MsgPri.low false 0).pri.val ≤ y.pri.val)) ∧
    WaitingSorted (enqueueMsgToWaitingQueue [messageCreate "B" 1 MsgPri.high false 1]
        (messageCreate "A" 1 MsgPri.low false 0)) :=
  c6_waiting_queue_order.1 [messageCreate "B" 1 MsgPri.high false 1]
    (messageCreate "A" 1 MsgPri.low false 0) (by simp [WaitingSorted])

/-- C7: on a disconnect event the connected flag is cleared, the publishing
map and the waiting queue keep exactly their QoS 1 and 2 messages unchanged
and in order, every QoS 0 message is removed, and (under the key-uniqueness
invariant of the maps) the published map gains exactly one failure-outcome
entry per synchronous QoS 0 message, keyed by sequence number. -/
theorem c7_disconnect_drops_qos0 :
    ∀ c : Client,
      (disconnectCallback c).connected = false ∧
      (disconnectCallback c).publishing =
        c.publishing.filter (fun kv => decide (QOS_AT_MOST_ONCE < kv.2.qos)) ∧
      (disconnectCallback c).waiting =
        c.waiting.filter (fun m => decide (QOS_AT_MOST_ONCE < m.qos)) ∧
      ((mapKeys c.published ++ mapKeys (qos0SyncRecord (c.publishing.map Prod.snd)) ++
          mapKeys (qos0SyncRecord c.waiting)).Nodup →
        (disconnectCallback c).published =
          c.published ++ qos0SyncRecord (c.publishing.map Prod.snd) ++
            qos0SyncRecord c.waiting) := by
  intro c
  refine ⟨rfl, ?_, ?_, ?_⟩
  · simp [disconnectCallback, dropQos0Messages, dropQos0FromPublishing_fst]
  · simp [disconnectCallback, dropQos0Messages, dropQos0FromWaiting_fst]
  · intro hnd
    have h1 : (mapKeys c.published ++
        mapKeys (qos0SyncRecord (c.publishing.map Prod.snd))).Nodup := by
      refine List.Nodup.sublist ?_ hnd
      exact List.sublist_append_left _ _
    have hP : (dropQos0FromPublishing c.publishing c.published).2 =
        c.published ++ qos0SyncRecord (c.publishing.map Prod.snd) :=
      dropQos0FromPublishing_snd c.publishing c.published h1
    have h2 : (mapKeys (c.published ++ qos0SyncRecord (c.publishing.map Prod.snd)) ++
        mapKeys (qos0SyncRecord c.waiting)).Nodup := by
      simpa [mapKeys, List.append_assoc] using hnd
    have hW : (dropQos0FromWaiting c.waiting
          (c.published ++ qos0SyncRecord (c.publishing.map Prod.snd))).2 =
        (c.published ++ qos0SyncRecord (c.publishing.map Prod.snd)) ++
          qos0SyncRecord c.waiting :=
      dropQos0FromWaiting_snd c.waiting _ h2
    show (dropQos0FromWaiting c.waiting
        (dropQos0FromPublishing c.publishing c.published).2).2 = _
    rw [hP, hW]

/-- C7, witness: a disconnect on a client holding one synchronous QoS 0 and
one QoS 2 message in the publishing map, and one synchronous QoS 0 and one
QoS 1 message in the waiting queue. -/
theorem c7_disconnect_drops_qos0_witness :
    (disconnectCallback ⟨10, 3, 5, true,
        [⟨"w0", none, 0, 0, MsgPri.low, true, 10, -1, Status.success⟩,
          ⟨"w1", none, 0, 1, MsgPri.low, false, 11, -1, Status.success⟩],
        [(1, ⟨"p0", none, 0, 0, MsgPri.low, true, 20, 1, Status.success⟩),
          (2, ⟨"p1", none, 0, 2, MsgPri.low, false, 21, 2, Status.success⟩)],
        [], []⟩).connected = false ∧
    (disconnectCallback ⟨10, 3, 5, true,
        [⟨"w0", none, 0, 0, MsgPri.low, true, 10, -1, Status.success⟩,
          ⟨"w1", none, 0, 1, MsgPri.low, false, 11, -1, Status.success⟩],
        [(1, ⟨"p0", none, 0, 0, MsgPri.low, true, 20, 1, Status.success⟩),
          (2, ⟨"p1", none, 0, 2, MsgPri.low, false, 21, 2, Status.success⟩)],
        [], []⟩).publishing =
      [(1, ⟨"p0", none, 0, 0, MsgPri.low, true, 20, 1, Status.success⟩),
        (2, ⟨"p1", none, 0, 2, MsgPri.low, false, 21, 2, Status.success⟩)].filter
        (fun kv => decide (QOS_AT_MOST_ONCE < kv.2.qos)) ∧
    (disconnectCallback ⟨10, 3, 5, true,
        [⟨"w0", none, 0, 0, MsgPri.low, true, 10, -1, Status.success⟩,
          ⟨"w1", none, 0, 1, MsgPri.low, false, 11, -1, Status.success⟩],
        [(1, ⟨"p0", none, 0, 0, MsgPri.low, true, 20, 1, Status.success⟩),
          (2, ⟨"p1", none, 0, 2, MsgPri.low, false, 21, 2, Status.success⟩)],
        [], []⟩).waiting =
      [⟨"w0", none, 0, 0, MsgPri.low, true, 10, -1, Status.success⟩,
        ⟨"w1", none, 0, 1, MsgPri.low, false, 11, -1, Status.success⟩].filter
        (fun m => decide (QOS_AT_MOST_ONCE < m.qos)) ∧
    (disconnectCallback ⟨10, 3, 5, true,
        [⟨"w0", none, 0, 0, MsgPri.low, true, 10, -1, Status.success⟩,
          ⟨"w1", none, 0, 1, MsgPri.low, false, 11, -1, Status.success⟩],
        [(1, ⟨"p0", none, 0, 0, MsgPri.low, true, 20, 1, Status.success⟩),
          (2, ⟨"p1", none, 0, 2, MsgPri.low, false, 21, 2, Status.success⟩)],
        [], []⟩).published =
      ([] : LongMap) ++
        qos0SyncRecord ([(1, ⟨"p0", none, 0, 0, MsgPri.low, true, 20, 1, Status.success⟩),
          (2, ⟨"p1", none, 0, 2, MsgPri.low, false, 21, 2, Status.success⟩)].map Prod.snd) ++
        qos0SyncRecord [⟨"w0", none, 0, 0, MsgPri.low, true, 10, -1, Status.success⟩,
          ⟨"w1", none, 0, 1, MsgPri.low, false, 11, -1, Status.success⟩] := by
  have h := c7_disconnect_drops_qos0 ⟨10, 3, 5, true,
    [⟨"w0", none, 0, 0, MsgPri.low, true, 10, -1, Status.success⟩,
      ⟨"w1", none, 0, 1, MsgPri.low, false, 11, -1, Status.success⟩],
    [(1, ⟨"p0", none, 0, 0, MsgPri.low, true, 20, 1, Status.success⟩),
      (2, ⟨"p1", none, 0, 2, MsgPri.low, false, 21, 2, Status.success⟩)],
    [], []⟩
  exact ⟨h.1, h.2.1, h.2.2.1, h.2.2.2 (by decide)⟩

/-- C8 counterexample: the claim states that unsubscribing a topic with no
active subscription is a no-op that leaves the ledger unchanged in every
connectivity state. On a disconnected client with an empty ledger, the first
unsubscribe of "a/b" returns success but inserts the sentinel entry, so the
ledger is changed. -/
theorem c8_unsubscribe_not_noop :
    (unsubscribe ⟨10, 0, 5, false, [], [], [], []⟩ "a/b" true).2 = Status.success ∧
    (unsubscribe ⟨10, 0, 5, false, [], [], [], []⟩ "a/b" true).1.subscriptions =
      [("a/b", -1)] ∧
    (unsubscribe ⟨10, 0, 5, false, [], [], [], []⟩ "a/b" true).1.subscriptions ≠
      ([] : SubMap) := by
  refine ⟨by decide, by decide, by decide⟩

/-- C8 amended: while connected (with the wire unsubscribe succeeding),
unsubscribing a topic with no ledger entry twice returns success both times
and leaves the ledger unchanged both times; while disconnected, both calls
return success but the first inserts the sentinel entry (it is not a no-op)
and the second call is then a no-op on the ledger. -/
theorem c8_unsubscribe_idempotent_amended :
    (∀ (c : Client) (topic : String),
      validateTopic topic = true → c.connected = true →
      smapHasKey c.subscriptions (translateTopic topic) = false →
      (unsubscribe c topic true).2 = Status.success ∧
      (unsubscribe c topic true).1.subscriptions = c.subscriptions ∧
      (unsubscribe (unsubscribe c topic true).1 topic true).2 = Status.success ∧
      (unsubscribe (unsubscribe c topic true).1 topic true).1.subscriptions =
        c.subscriptions) ∧
    (∀ (c : Client) (topic : String) (wireOk : Bool),
      validateTopic topic = true → c.connected = false →
      (unsubscribe c topic wireOk).2 = Status.success ∧
      (unsubscribe c topic wireOk).1.subscriptions =
        smapPut c.subscriptions (translateTopic topic) QOS_UNKNOWN ∧
      (unsubscribe (unsubscribe c topic wireOk).1 topic wireOk).2 = Status.success ∧
      (unsubscribe (unsubscribe c topic wireOk).1 topic wireOk).1.subscriptions =
        (unsubscribe c topic wireOk).1.subscriptions) := by
  constructor
  · intro c topic hv hc hk
    have hrem : smapRemove c.subscriptions (translateTopic topic) =
        (false, c.subscriptions) := by
      rw [smapRemove]
      simp [hk]
    refine ⟨?_, ?_, ?_, ?_⟩ <;> simp [unsubscribe, hv, hc, hrem]
  · intro c topic wireOk hv hc
    have h1 : (unsubscribe c topic wireOk).1.subscriptions =
        smapPut c.subscriptions (translateTopic topic) QOS_UNKNOWN := by
      simp [unsubscribe, hv, hc]
    refine ⟨?_, h1, ?_, ?_⟩
    · simp [unsubscribe, hv, hc]
    · simp [unsubscribe, hv, hc]
    · have h2 : (unsubscribe (unsubscribe c topic wireOk).1 topic wireOk).1.subscriptions =
          smapPut (smapPut c.subscriptions (translateTopic topic) QOS_UNKNOWN)
            (translateTopic topic) QOS_UNKNOWN := by
        simp [unsubscribe, hv, hc]
      rw [h2, smapPut_put, h1]

/-- C8 amended, witness: the connected no-op double unsubscribe on a ledger
holding only another topic, and the disconnected sentinel-inserting double
unsubscribe on an empty ledger. -/
theorem c8_unsubscribe_idempotent_amended_witness :
    ((unsubscribe ⟨10, 0, 5, true, [], [], [], [("z", 1)]⟩ "y" true).2 =
        Status.success ∧
      (unsubscribe ⟨10, 0, 5, true, [], [], [], [("z", 1)]⟩ "y" true).1.subscriptions =
        [("z", 1)] ∧
      (unsubscribe (unsubscribe ⟨10, 0, 5, true, [], [], [], [("z", 1)]⟩ "y"
          true).1 "y" true).2 = Status.success ∧
      (unsubscribe (unsubscribe ⟨10, 0, 5, true, [], [], [], [("z", 1)]⟩ "y"
          true).1 "y" true).1.subscriptions = [("z", 1)]) ∧
    ((unsubscribe ⟨10, 0, 5, false, [], [], [], []⟩ "y" true).2 = Status.success ∧
      (unsubscribe ⟨10, 0, 5, false, [], [], [], []⟩ "y" true).1.subscriptions =
        smapPut ([] : SubMap) (translateTopic "y") QOS_UNKNOWN ∧
      (unsubscribe (unsubscribe ⟨10, 0, 5, false, [], [], [], []⟩ "y" true).1 "y"
          true).2 = Status.success ∧
      (unsubscribe (unsubscribe ⟨10, 0, 5, false, [], [], [], []⟩ "y" true).1 "y"
          true).1.subscriptions =
        (unsubscribe ⟨10, 0, 5, false, [], [], [], []⟩ "y" true).1.subscriptions) :=
  ⟨c8_unsubscribe_idempotent_amended.1 ⟨10, 0, 5, true, [], [], [], [("z", 1)]⟩ "y"
      (by decide) rfl (by decide),
    c8_unsubscribe_idempotent_amended.2 ⟨10, 0, 5, false, [], [], [], []⟩ "y" true
      (by decide) rfl⟩

/-- C9: subscribing a valid topic at QoS 1 and then unsubscribing it while
disconnected leaves the ledger entry (under the translated key) at the
sentinel unknown QoS; the next resubscription pass issues a wire unsubscribe
for it and removes the entry, so afterwards the ledger has no entry for that
topic (the ledger keys are assumed unique, the hash-map invariant). -/
theorem c9_subscribe_unsubscribe_roundtrip :
    ∀ (c : Client) (topic : String) (w1 w2 : Bool),
      validateTopic topic = true → c.connected = false →
      (c.subscriptions.map Prod.fst).Nodup →
      smapLookup (unsubscribe (subscribe c topic 1 w1).1 topic w2).1.subscriptions
          (translateTopic topic) = some QOS_UNKNOWN ∧
      WireOp.unsub (translateTopic topic) ∈
        (refreshSubscriptions
          (unsubscribe (subscribe c topic 1 w1).1 topic w2).1.subscriptions).2 ∧
      smapHasKey
        (refreshSubscriptions
          (unsubscribe (subscribe c topic 1 w1).1 topic w2).1.subscriptions).1
        (translateTopic topic) = false := by
  intro c topic w1 w2 hv hc hnd
  have hsub : (subscribe c topic 1 w1).1.subscriptions =
      smapPut c.subscriptions (translateTopic topic) 1 := by
    simp [subscribe, hv, hc]
  have hc1 : (subscribe c topic 1 w1).1.connected = false := by
    simp [subscribe, hv, hc]
  have hcol : (unsubscribe (subscribe c topic 1 w1).1 topic w2).1.subscriptions =
      smapPut c.subscriptions (translateTopic topic) QOS_UNKNOWN := by
    have hstep : (unsubscribe (subscribe c topic 1 w1).1 topic w2).1.subscriptions =
        smapPut (subscribe c topic 1 w1).1.subscriptions (translateTopic topic)
          QOS_UNKNOWN := by
      simp [unsubscribe, hv, hc1]
    rw [hstep, hsub, smapPut_put]
  refine ⟨?_, ?_, ?_⟩
  · rw [hcol]
    exact smapLookup_put_self _ _ _
  · rw [hcol]
    exact refresh_unsub_mem _ _ QOS_UNKNOWN (mem_smapPut_self _ _ _) le_rfl
  · rw [hcol, refresh_hasKey]
    have h3 := smapPut_any_key c.subscriptions (translateTopic topic) QOS_UNKNOWN
      (fun q => decide (QOS_UNKNOWN < q)) hnd
    simp only [] at h3
    rw [h3]
    decide

/-- C9, witness: the round trip on a disconnected client with an empty
ledger and the topic "top". -/
theorem c9_subscribe_unsubscribe_roundtrip_witness :
    smapLookup (unsubscribe (subscribe ⟨10, 0, 5, false, [], [], [], []⟩ "top" 1
          true).1 "top" true).1.subscriptions (translateTopic "top") =
      some QOS_UNKNOWN ∧
    WireOp.unsub (translateTopic "top") ∈
      (refreshSubscriptions (unsubscribe (subscribe ⟨10, 0, 5, false, [], [], [], []⟩
          "top" 1 true).1 "top" true).1.subscriptions).2 ∧
    smapHasKey (refreshSubscriptions (unsubscribe (subscribe
          ⟨10, 0, 5, false, [], [], [], []⟩ "top" 1 true).1 "top"
          true).1.subscriptions).1 (translateTopic "top") = false :=
  c9_subscribe_unsubscribe_roundtrip ⟨10, 0, 5, false, [], [], [], []⟩ "top" true true
    (by decide) rfl (by decide)

/-- C10 counterexample: the claim states that at arena capacity 1 every
publishAsync at LOW priority is rejected with a resource error. With QoS 0
on a disconnected capacity-1 client the call is rejected with the
connectivity error ENOTCONN, which is not the resource error ENOMEM. -/
theorem c10_low_not_resource_error :
    (publishAsync ⟨1, 0, 5, false, [], [], [], []⟩ "t" none 0 0 MsgPri.low 0 1).2 =
        Status.enotconn ∧
    Status.enotconn ≠ Status.enomem := by
  refine ⟨by decide, by decide⟩

/-- C10 amended: at capacity 1 the LOW admission threshold 1 * 70 / 100 is 0,
so LOW is never admitted even with the pool empty; every publishAsync at LOW
priority returns ENOTCONN when QoS 0 and disconnected and the resource error
ENOMEM otherwise; publishSync never reaches message creation: with QoS 0 it
fails immediately (ENOTCONN disconnected, ENOMEM connected), and with
QoS 1 or 2 the admission loop returns the first failing condition-wait
status, which the deadline guarantees to exist. -/
theorem c10_capacity_one_amended :
    (∀ u : Nat, hasFreeMsgForPool 1 u MsgPri.low = false) ∧
    (∀ (c : Client) (topic : String) (payload : Option String) (psz : Nat)
        (qos seqNr mid : Int), c.cap = 1 →
      ((qos ≤ QOS_AT_MOST_ONCE ∧ c.connected = false) →
        publishAsync c topic payload psz qos MsgPri.low seqNr mid =
          (c, Status.enotconn)) ∧
      (¬ (qos ≤ QOS_AT_MOST_ONCE ∧ c.connected = false) →
        publishAsync c topic payload psz qos MsgPri.low seqNr mid =
          (c, Status.enomem))) ∧
    (∀ (connected : Bool) (qos : Int) (trace : List (Nat × Status)),
      publishSyncPre connected 1 qos trace ≠ AdmitResult.admitted ∧
      (qos ≤ QOS_AT_MOST_ONCE → connected = false →
        publishSyncPre connected 1 qos trace = AdmitResult.failed Status.enotconn) ∧
      (qos ≤ QOS_AT_MOST_ONCE → connected = true → trace ≠ [] →
        publishSyncPre connected 1 qos trace = AdmitResult.failed Status.enomem) ∧
      (∀ s : Status, ¬ qos ≤ QOS_AT_MOST_ONCE →
        (trace.map Prod.snd).find? (fun w => decide (w ≠ Status.success)) = some s →
        publishSyncPre connected 1 qos trace = AdmitResult.failed s)) := by
  refine ⟨hasFree_low_cap_one, ?_, ?_⟩
  · intro c topic payload psz qos seqNr mid hcap
    constructor
    · intro h
      simp [publishAsync, h]
    · intro hn
      have hfree : hasFreeMsgFor c MsgPri.low = false := by
        rw [hasFreeMsgFor, hcap]
        exact hasFree_low_cap_one c.usedSize
      simp [publishAsync, hn, hfree]
  · intro connected qos trace
    refine ⟨?_, ?_, ?_, ?_⟩
    · by_cases h : qos ≤ QOS_AT_MOST_ONCE ∧ connected = false
      · simp [publishSyncPre, h]
      · simp [publishSyncPre, h]
        exact publishSyncAdmit_cap_one_ne_admitted qos trace
    · intro hq hcf
      simp [publishSyncPre, hq, hcf]
    · intro hq hct htr
      have hcond : ¬ (qos ≤ QOS_AT_MOST_ONCE ∧ connected = false) := by
        rw [hct]
        simp
      rw [publishSyncPre, if_neg hcond]
      cases trace with
      | nil => exact absurd rfl htr
      | cons p rest =>
        obtain ⟨u, w⟩ := p
        exact publishSyncAdmit_cap_one_qos0 qos hq u w rest
    · intro s hq hfind
      have hcond : ¬ (qos ≤ QOS_AT_MOST_ONCE ∧ connected = false) := by
        intro hcc
        exact hq hcc.1
      rw [publishSyncPre, if_neg hcond]
      exact publishSyncAdmit_cap_one_firstFail qos hq trace s hfind

/-- C10 amended, witness: the never-admitted fact at used count 0, the
connected QoS 1 publishAsync rejection on a concrete capacity-1 client, and
the QoS 1 publishSync admission loop returning the timeout of its single
failing wait. -/
theorem c10_capacity_one_amended_witness :
    hasFreeMsgForPool 1 0 MsgPri.low = false ∧
    publishAsync ⟨1, 0, 5, true, [], [], [], []⟩ "t" none 0 1 MsgPri.low 0 1 =
      (⟨1, 0, 5, true, [], [], [], []⟩, Status.enomem) ∧
    publishSyncPre true 1 1 [(0, Status.timedOut)] =
      AdmitResult.failed Status.timedOut :=
  ⟨c10_capacity_one_amended.1 0,
    (c10_capacity_one_amended.2.1 ⟨1, 0, 5, true, [], [], [], []⟩ "t" none 0 1 0 1
        rfl).2 (by decide),
    (c10_capacity_one_amended.2.2 true 1 [(0, Status.timedOut)]).2.2.2
      Status.timedOut (by decide) (by decide)⟩

end Celix.Earpm
